import Mathlib

/-!
Verification of the neocities API client wrapper (src/lib.rs) and its CLI
front end (examples/neocities-cli.rs), as a shallow embedding.

Source layout:
* JSON values and the serde-style decoding of the `ApiResult` response
  envelope (internally tagged by `result`, payload-field aliases,
  defaulted error fields).
* The per-operation response pipelines (`list`, `info`, `key` call
  `error_for_status` before decoding; `upload`, `delete` do not).
* The authorization-header selection (`add_authorization_header`).
* The CLI orchestration loops (`DeleteAll`, `UploadAll`, `List`) and the
  credential-selection logic of `run`.
-/

namespace Neocities

/-- JSON values. Numbers are modelled as integers (all numeric fields of
this API are i64 on the wire). -/
inductive Json where
  | null : Json
  | bool (b : Bool) : Json
  | num (n : Int) : Json
  | str (s : String) : Json
  | arr (elems : List Json) : Json
  | obj (fields : List (String × Json)) : Json

/-- All values carried by fields named by one of `names`, in object order.
Serde visits the fields of a JSON object in input order and matches each
key against the field names (and aliases) it knows. -/
def valuesFor (names : List String) (fields : List (String × Json)) : List Json :=
  fields.filterMap (fun kv => if kv.1 ∈ names then some kv.2 else none)

/-- The `ApiResult` envelope of src/lib.rs: internally tagged by `result`,
with variants `error` (defaulted `error_type`/`message` strings) and
`success` (single payload field). -/
inductive ApiResult (T : Type) where
  | Error (error_type : String) (message : String) : ApiResult T
  | Success (data : T) : ApiResult T

/-- The names accepted for the success payload field: the declared field
name `data` plus the serde aliases `info`, `files`, `api_key`, `message`. -/
def payloadAliases : List String := ["data", "info", "files", "api_key", "message"]

/-- Extraction of the `result` tag: serde errors when the tag is missing,
duplicated, or not a string. -/
def getResultTag (fields : List (String × Json)) : Except String String :=
  match valuesFor ["result"] fields with
  | [] => .error "missing field result"
  | [Json.str s] => .ok s
  | [_] => .error "invalid type for tag result"
  | _ => .error "duplicate field result"

/-- A string field with `#[serde(default)]`: missing means empty string;
a present field must be a string and must not be duplicated. -/
def getStringDefault (name : String) (fields : List (String × Json)) :
    Except String String :=
  match valuesFor [name] fields with
  | [] => .ok ""
  | [Json.str s] => .ok s
  | [_] => .error ("invalid type for field " ++ name)
  | _ => .error ("duplicate field " ++ name)

/-- Decoding the `success` variant body: exactly one field named by any of
the payload aliases must be present (serde errors on a missing or
duplicated payload field); other fields are ignored. -/
def decodeSuccess {T : Type} (decT : Json → Except String T)
    (fields : List (String × Json)) : Except String (ApiResult T) :=
  match valuesFor payloadAliases fields with
  | [v] => (decT v).map ApiResult.Success
  | [] => .error "missing field data"
  | _ => .error "duplicate field data"

/-- Decoding the `error` variant body: `error_type` and `message` default
to the empty string when absent; unknown fields are ignored. -/
def decodeError {T : Type} (fields : List (String × Json)) :
    Except String (ApiResult T) :=
  match getStringDefault "error_type" fields with
  | .error e => .error e
  | .ok et =>
    match getStringDefault "message" fields with
    | .error e => .error e
    | .ok m => .ok (ApiResult.Error et m)

/-- The envelope decode on an object's fields: read the tag, strip it
from the object, then decode the chosen variant from the remaining
fields; an unknown tag value is an error. -/
def decodeEnvelopeFields {T : Type} (decT : Json → Except String T)
    (fields : List (String × Json)) : Except String (ApiResult T) :=
  match getResultTag fields with
  | .error e => .error e
  | .ok tag =>
    let rest := fields.filter (fun kv => kv.1 != "result")
    if tag = "success" then decodeSuccess decT rest
    else if tag = "error" then decodeError rest
    else .error ("unknown variant " ++ tag)

/-- Serde deserialization of `ApiResult<T>` (internally tagged by
`result`): the body must be a JSON object, whose fields then go through
the envelope decode. -/
def decodeApiResult {T : Type} (decT : Json → Except String T) (j : Json) :
    Except String (ApiResult T) :=
  match j with
  | Json.obj fields => decodeEnvelopeFields decT fields
  | _ => .error "invalid type: expected a map"

/-- The neocities error type: `ApiErr` carries the envelope's error kind
and message; `ReqwestErr` wraps any transport-level failure (HTTP status
error, decode error). -/
inductive NeocitiesError where
  | ApiErr (error_type : String) (message : String) : NeocitiesError
  | ReqwestErr (msg : String) : NeocitiesError

/-- `ApiResult::to_result`: collapse the envelope to the payload or to an
`ApiErr`. -/
def ApiResult.to_result {T : Type} : ApiResult T → Except NeocitiesError T
  | ApiResult.Success data => .ok data
  | ApiResult.Error error_type message => .error (.ApiErr error_type message)

/-! Payload decoders for the concrete endpoint payload types. -/

/-- A path and its metadata returned by the server (`ListEntry`). -/
inductive ListEntry where
  | File (path : String) (size : Int) (updated_at : String) (sha1_hash : String) : ListEntry
  | Directory (path : String) (updated_at : String) : ListEntry

/-- Info about a Neocities site (`Info`), with `site_name` renamed from
the wire field `sitename`. -/
structure Info where
  site_name : String
  hits : Int
  created_at : String
  last_updated : String
  domain : Option String
  tags : List String

/-- A required string field of a struct. -/
def getReqString (name : String) (fields : List (String × Json)) :
    Except String String :=
  match valuesFor [name] fields with
  | [] => .error ("missing field " ++ name)
  | [Json.str s] => .ok s
  | [_] => .error ("invalid type for field " ++ name)
  | _ => .error ("duplicate field " ++ name)

/-- A required i64 field of a struct: the JSON number must fit in 64-bit
two's complement. -/
def getReqI64 (name : String) (fields : List (String × Json)) :
    Except String Int :=
  match valuesFor [name] fields with
  | [] => .error ("missing field " ++ name)
  | [Json.num n] =>
    if -(2 ^ 63) ≤ n ∧ n < 2 ^ 63 then .ok n
    else .error ("number out of range for field " ++ name)
  | [_] => .error ("invalid type for field " ++ name)
  | _ => .error ("duplicate field " ++ name)

/-- An `Option<String>` field: serde treats a missing or null field as
`None`. -/
def getOptString (name : String) (fields : List (String × Json)) :
    Except String (Option String) :=
  match valuesFor [name] fields with
  | [] => .ok none
  | [Json.null] => .ok none
  | [Json.str s] => .ok (some s)
  | [_] => .error ("invalid type for field " ++ name)
  | _ => .error ("duplicate field " ++ name)

/-- Decoding a JSON string. -/
def decodeString (j : Json) : Except String String :=
  match j with
  | Json.str s => .ok s
  | _ => .error "invalid type: expected a string"

/-- A required `Vec<String>` field of a struct. -/
def getStringArray (name : String) (fields : List (String × Json)) :
    Except String (List String) :=
  match valuesFor [name] fields with
  | [] => .error ("missing field " ++ name)
  | [Json.arr xs] => xs.mapM decodeString
  | [_] => .error ("invalid type for field " ++ name)
  | _ => .error ("duplicate field " ++ name)

/-- Serde deserialization of the untagged `ListEntry` enum: the `File`
variant (all four fields present) is tried first, then `Directory`. -/
def decodeListEntry (j : Json) : Except String ListEntry :=
  match j with
  | Json.obj fields =>
    match getReqString "path" fields, getReqI64 "size" fields,
        getReqString "updated_at" fields, getReqString "sha1_hash" fields with
    | .ok p, .ok s, .ok u, .ok h => .ok (ListEntry.File p s u h)
    | _, _, _, _ =>
      match getReqString "path" fields, getReqString "updated_at" fields with
      | .ok p, .ok u => .ok (ListEntry.Directory p u)
      | _, _ => .error "data did not match any variant of untagged enum ListEntry"
  | _ => .error "invalid type: expected a map"

/-- Decoding `Vec<ListEntry>`. -/
def decodeListEntries (j : Json) : Except String (List ListEntry) :=
  match j with
  | Json.arr xs => xs.mapM decodeListEntry
  | _ => .error "invalid type: expected an array"

/-- Serde deserialization of `Info`. -/
def decodeInfo (j : Json) : Except String Info :=
  match j with
  | Json.obj fields =>
    match getReqString "sitename" fields with
    | .error e => .error e
    | .ok site_name =>
      match getReqI64 "hits" fields with
      | .error e => .error e
      | .ok hits =>
        match getReqString "created_at" fields with
        | .error e => .error e
        | .ok created_at =>
          match getReqString "last_updated" fields with
          | .error e => .error e
          | .ok last_updated =>
            match getOptString "domain" fields with
            | .error e => .error e
            | .ok domain =>
              match getStringArray "tags" fields with
              | .error e => .error e
              | .ok tags => .ok ⟨site_name, hits, created_at, last_updated, domain, tags⟩
  | _ => .error "invalid type: expected a map"

/-! The per-operation response pipelines. Each operation sends its
request and then interprets the HTTP response; network-level send
failures are transport errors trivially and are not modelled further, so
a pipeline maps the received response (status and already-parsed JSON
body) to the operation's result. -/

/-- An HTTP response: status code and JSON body. -/
structure Response where
  status : Nat
  body : Json

/-- `reqwest::Response::error_for_status`: fails on a 4xx or 5xx status
and is the identity otherwise. -/
def error_for_status (r : Response) : Except String Response :=
  if 400 ≤ r.status ∧ r.status ≤ 599 then
    .error ("HTTP status " ++ toString r.status ++ " error")
  else .ok r

/-- The `.json::<ApiResult<T>>() … .to_result()` tail shared by every
operation: a decode failure is a `ReqwestErr`; a decoded envelope
collapses via `to_result`. -/
def decodeStep {T : Type} (decT : Json → Except String T) (body : Json) :
    Except NeocitiesError T :=
  match decodeApiResult decT body with
  | .error e => .error (.ReqwestErr ("error decoding response body: " ++ e))
  | .ok ar => ar.to_result

/-- `Neocities::list`: `error_for_status`, then decode `Vec<ListEntry>`. -/
def list_handle (r : Response) : Except NeocitiesError (List ListEntry) :=
  match error_for_status r with
  | .error e => .error (.ReqwestErr e)
  | .ok ok => decodeStep decodeListEntries ok.body

/-- `Neocities::info`: `error_for_status`, then decode `Info`. -/
def info_handle (r : Response) : Except NeocitiesError Info :=
  match error_for_status r with
  | .error e => .error (.ReqwestErr e)
  | .ok ok => decodeStep decodeInfo ok.body

/-- `Neocities::key`: `error_for_status`, then decode `String`. -/
def key_handle (r : Response) : Except NeocitiesError String :=
  match error_for_status r with
  | .error e => .error (.ReqwestErr e)
  | .ok ok => decodeStep decodeString ok.body

/-- `Neocities::upload`: decodes the body directly, with no
`error_for_status` call. -/
def upload_handle (r : Response) : Except NeocitiesError String :=
  decodeStep decodeString r.body

/-- `Neocities::delete`: decodes the body directly, with no
`error_for_status` call. -/
def delete_handle (r : Response) : Except NeocitiesError String :=
  decodeStep decodeString r.body

/-- Classification of an operation outcome into the two error kinds of
`NeocitiesError` plus success. -/
inductive ErrClass where
  | ok : ErrClass
  | api : ErrClass
  | transport : ErrClass
deriving DecidableEq

/-- The classification of a pipeline result. -/
def classify {T : Type} : Except NeocitiesError T → ErrClass
  | .ok _ => ErrClass.ok
  | .error (.ApiErr _ _) => ErrClass.api
  | .error (.ReqwestErr _) => ErrClass.transport

/-- Does a JSON value equal a given string literal? Used to state that a
`result` tag is neither `success` nor `error`. -/
def Json.isStr (j : Json) (t : String) : Bool :=
  match j with
  | Json.str s => s == t
  | _ => false

/-! Authorization-header construction. -/

/-- The client's authentication material (`Auth` in src/lib.rs). -/
inductive Auth where
  | Login (username : String) (password : String) : Auth
  | Key (key : String) : Auth

/-- A request under construction: method, URL, accumulated headers and an
optional body, the parts of `reqwest::RequestBuilder` this client
touches. -/
structure RequestBuilder where
  method : String
  url : String
  headers : List (String × String)
  body : Option (List Nat)

/-- The standard base64 alphabet. -/
def base64Chars : List Char :=
  "ABCDEFGHIJKLMNOPQRSTUVWXYZabcdefghijklmnopqrstuvwxyz0123456789+/".toList

/-- The base64 digit for a 6-bit value. -/
def b64char (n : Nat) : Char := base64Chars.getD n 'A'

/-- Standard base64 with padding over a byte sequence (each byte < 256),
as used by `reqwest`'s Basic-auth header encoding. -/
def base64Encode : List Nat → String
  | [] => ""
  | [a] => String.mk [b64char (a / 4), b64char (a % 4 * 16), '=', '=']
  | [a, b] =>
    String.mk [b64char (a / 4), b64char (a % 4 * 16 + b / 16), b64char (b % 16 * 4), '=']
  | a :: b :: c :: rest =>
    String.mk [b64char (a / 4), b64char (a % 4 * 16 + b / 16),
      b64char (b % 16 * 4 + c / 64), b64char (c % 64)] ++ base64Encode rest

/-- The UTF-8 bytes of a string, as naturals. -/
def strBytes (s : String) : List Nat := s.toUTF8.toList.map (fun b => b.toNat)

/-- `RequestBuilder::basic_auth`: appends an
`Authorization: Basic base64(username:password)` header. -/
def RequestBuilder.basic_auth (r : RequestBuilder) (username : String)
    (password : Option String) : RequestBuilder :=
  { r with headers := r.headers ++
      [("authorization",
        "Basic " ++ base64Encode (strBytes (username ++ ":" ++ password.getD "")))] }

/-- `RequestBuilder::bearer_auth`: appends an
`Authorization: Bearer token` header. -/
def RequestBuilder.bearer_auth (r : RequestBuilder) (token : String) :
    RequestBuilder :=
  { r with headers := r.headers ++ [("authorization", "Bearer " ++ token)] }

/-- `add_authorization_header` of src/lib.rs: Basic auth for the
`Login` variant, Bearer auth for the `Key` variant. -/
def add_authorization_header (request : RequestBuilder) (auth : Auth) :
    RequestBuilder :=
  match auth with
  | Auth.Login username password => request.basic_auth username (some password)
  | Auth.Key key => request.bearer_auth key

/-! CLI layer (examples/neocities-cli.rs). -/

/-- Credential selection at the top of `run`: a complete
username/password pair wins; otherwise a key; otherwise the run fails
with `No login specified!` before any API call. -/
def selectCredential :
    Option String → Option String → Option String → Except String Auth
  | some username, some password, _ => .ok (Auth.Login username password)
  | _, _, some key => .ok (Auth.Key key)
  | _, _, none => .error "No login specified!"

/-- The lines printed by the `List` subcommand: four lines per `File`
entry, nothing for a `Directory` entry. -/
def listCmdOutput : List ListEntry → List String
  | [] => []
  | ListEntry.File path size updated_at sha1_hash :: rest =>
    ("File: " ++ path) :: ("Size: " ++ toString size) ::
      ("Updated at: " ++ updated_at) :: ("SHA-1: " ++ sha1_hash) ::
      listCmdOutput rest
  | ListEntry.Directory _ _ :: rest => listCmdOutput rest

/-- Accumulated observable effects of a CLI bulk loop: the paths passed
to `delete` calls, in order, and the lines printed. -/
structure CliLog where
  calls : List String
  prints : List String

/-- The first `DeleteAll` pass: one `delete` call per `File` entry except
a file whose path is exactly `index.html`; a failed call (per the
`deleteOk` oracle) only prints a line and the loop continues. Returns the
calls and the printed lines. -/
def runFilePass (deleteOk : String → Bool) : List ListEntry → List String × List String
  | [] => ([], [])
  | ListEntry.File path _ _ _ :: rest =>
    if path = "index.html" then runFilePass deleteOk rest
    else
      let out := runFilePass deleteOk rest
      if deleteOk path then (path :: out.1, out.2)
      else (path :: out.1, ("Failed to delete `" ++ path ++ "`") :: out.2)
  | ListEntry.Directory _ _ :: rest => runFilePass deleteOk rest

/-- The second `DeleteAll` pass: one `delete` call per `Directory` entry;
a failed call is ignored entirely (the print in the source is commented
out). -/
def runDirPass (deleteOk : String → Bool) : List ListEntry → List String
  | [] => []
  | ListEntry.Directory path _ :: rest => path :: runDirPass deleteOk rest
  | ListEntry.File _ _ _ _ :: rest => runDirPass deleteOk rest

/-- The whole `DeleteAll` sweep over a listing: file pass then directory
pass. -/
def deleteAllRun (deleteOk : String → Bool) (listing : List ListEntry) : CliLog :=
  let filePass := runFilePass deleteOk listing
  { calls := filePass.1 ++ runDirPass deleteOk listing
    prints := filePass.2 }

/-! `UploadAll`. The walk of the local tree is modelled as the sequence
of items `WalkDir` yields: either an error, or an entry given by its
path components relative to the root plus whether it is a directory.
Rendering a relative path joins the components with the host separator;
the source then replaces every backslash by a forward slash. -/

/-- One item yielded by the directory walk. -/
inductive WalkStep where
  | err (msg : String) : WalkStep
  | entry (comps : List String) (isDir : Bool) : WalkStep

/-- A host relative path: components joined by the host separator. -/
def renderPath (sep : String) : List String → String
  | [] => ""
  | [c] => c
  | c :: rest => c ++ sep ++ renderPath sep rest

/-- The source's `.replace("\\", "/")`: the pattern is the single
backslash character, so the replacement maps characters pointwise. -/
def normalizeSeparators (s : String) : String :=
  String.mk (s.data.map (fun c => if c = '\\' then '/' else c))

/-- Result of an `UploadAll` loop: the remote paths of the `upload` calls
issued, in order, and the loop's outcome. -/
structure UploadOutcome where
  calls : List String
  result : Except String Unit

/-- The `UploadAll` loop: for each walk item, a walk error aborts; a
directory entry is skipped; a file entry is read (read failure aborts)
and uploaded (the failing call is still issued, then the failure
aborts). `readF` and `uploadF` are the filesystem and API oracles. -/
def uploadAllRun (readF : List String → Except String (List Nat))
    (uploadF : String → List Nat → Except String String) (sep : String) :
    List WalkStep → UploadOutcome
  | [] => ⟨[], .ok ()⟩
  | WalkStep.err m :: _ => ⟨[], .error m⟩
  | WalkStep.entry comps isDir :: rest =>
    let neoPath := normalizeSeparators (renderPath sep comps)
    if isDir then uploadAllRun readF uploadF sep rest
    else
      match readF comps with
      | .error e => ⟨[], .error e⟩
      | .ok contents =>
        match uploadF neoPath contents with
        | .error e => ⟨[neoPath], .error e⟩
        | .ok _ =>
          let out := uploadAllRun readF uploadF sep rest
          ⟨neoPath :: out.calls, out.result⟩

/-- The remote paths `UploadAll` is expected to upload: one per file
entry of the walk, none per directory entry, rendered and normalized. -/
def expectedUploads (sep : String) (steps : List WalkStep) : List String :=
  steps.filterMap (fun s =>
    match s with
    | WalkStep.entry comps false => some (normalizeSeparators (renderPath sep comps))
    | _ => none)

/-- A walk item that the loop gets past without aborting: an entry that
is a directory, or a file whose read and upload both succeed. -/
def stepOk (readF : List String → Except String (List Nat))
    (uploadF : String → List Nat → Except String String) (sep : String) :
    WalkStep → Prop
  | WalkStep.err _ => False
  | WalkStep.entry _ true => True
  | WalkStep.entry comps false =>
    ∃ contents, readF comps = .ok contents ∧
      ∃ m, uploadF (normalizeSeparators (renderPath sep comps)) contents = .ok m

/-! Concrete oracles and inputs used to instantiate the theorems below on
closed data. -/

/-- A filesystem oracle whose reads always succeed. -/
def readAlwaysOk : List String → Except String (List Nat) := fun _ => .ok []

/-- An upload oracle that always succeeds. -/
def uploadAlwaysOk : String → List Nat → Except String String :=
  fun _ _ => .ok "your file(s) have been successfully uploaded"

/-- A sample walk of a local tree holding `a.txt` and `sub/b.txt`. -/
def sampleWalk : List WalkStep :=
  [WalkStep.entry ["a.txt"] false, WalkStep.entry ["sub"] true,
    WalkStep.entry ["sub", "b.txt"] false]

/-! Helper lemmas about field lookup. -/

theorem valuesFor_cons (names : List String) (kv : String × Json)
    (fields : List (String × Json)) :
    valuesFor names (kv :: fields) =
      if kv.1 ∈ names then kv.2 :: valuesFor names fields
      else valuesFor names fields := by
  by_cases hmem : kv.1 ∈ names <;> simp [valuesFor, List.filterMap_cons, hmem]

theorem valuesFor_eq_nil {names : List String} {fields : List (String × Json)}
    (h : ∀ kv ∈ fields, kv.1 ∉ names) : valuesFor names fields = [] := by
  unfold valuesFor
  rw [List.filterMap_eq_nil_iff]
  intro kv hkv
  simp [h kv hkv]

theorem filter_not_result_eq_self {fields : List (String × Json)}
    (h : ∀ kv ∈ fields, kv.1 ≠ "result") :
    fields.filter (fun kv => kv.1 != "result") = fields := by
  rw [List.filter_eq_self]
  intro kv hkv
  simpa using h kv hkv

/-- C1: decoding a success envelope with the payload under any of the
four wire aliases `info`, `files`, `api_key`, `message` yields the same
logical result, namely the decoded payload wrapped in
`ApiResult.Success`. -/
theorem success_alias_interchangeable {T : Type}
    (decT : Json → Except String T) (v : Json) :
    decodeApiResult decT (Json.obj [("result", Json.str "success"), ("info", v)]) =
        (decT v).map ApiResult.Success ∧
      decodeApiResult decT (Json.obj [("result", Json.str "success"), ("files", v)]) =
        (decT v).map ApiResult.Success ∧
      decodeApiResult decT (Json.obj [("result", Json.str "success"), ("api_key", v)]) =
        (decT v).map ApiResult.Success ∧
      decodeApiResult decT (Json.obj [("result", Json.str "success"), ("message", v)]) =
        (decT v).map ApiResult.Success :=
  ⟨rfl, rfl, rfl, rfl⟩

/-- C2: decoding an error envelope succeeds with empty-string defaults
for whichever of `error_type` and `message` is absent, for any other
fields `rest` not using the reserved names. -/
theorem error_envelope_defaults {T : Type} (decT : Json → Except String T)
    (rest : List (String × Json)) (et m : String)
    (h : ∀ kv ∈ rest, kv.1 ≠ "result" ∧ kv.1 ≠ "error_type" ∧ kv.1 ≠ "message") :
    decodeApiResult decT (Json.obj (("result", Json.str "error") :: rest)) =
        .ok (ApiResult.Error "" "") ∧
      decodeApiResult decT
          (Json.obj (("result", Json.str "error") :: ("error_type", Json.str et) :: rest)) =
        .ok (ApiResult.Error et "") ∧
      decodeApiResult decT
          (Json.obj (("result", Json.str "error") :: ("message", Json.str m) :: rest)) =
        .ok (ApiResult.Error "" m) ∧
      decodeApiResult decT
          (Json.obj (("result", Json.str "error") :: ("error_type", Json.str et) ::
            ("message", Json.str m) :: rest)) =
        .ok (ApiResult.Error et m) := by
  have hres : valuesFor ["result"] rest = [] :=
    valuesFor_eq_nil (fun kv hkv => by simp [(h kv hkv).1])
  have het : valuesFor ["error_type"] rest = [] :=
    valuesFor_eq_nil (fun kv hkv => by simp [(h kv hkv).2.1])
  have hmsg : valuesFor ["message"] rest = [] :=
    valuesFor_eq_nil (fun kv hkv => by simp [(h kv hkv).2.2])
  have hfil : rest.filter (fun kv => kv.1 != "result") = rest :=
    filter_not_result_eq_self (fun kv hkv => (h kv hkv).1)
  refine ⟨?_, ?_, ?_, ?_⟩ <;>
    simp [decodeApiResult, decodeEnvelopeFields, getResultTag, decodeError,
      getStringDefault, valuesFor_cons, hres, het, hmsg, List.filter_cons, hfil]

/-- Decoding fails whenever every value stored under `result` (possibly
none) is neither the string `success` nor the string `error`. -/
theorem decodeApiResult_error_of_bad_tag {T : Type}
    (decT : Json → Except String T) (fields : List (String × Json))
    (h : ∀ v ∈ valuesFor ["result"] fields,
      Json.isStr v "success" = false ∧ Json.isStr v "error" = false) :
    ∃ e, decodeApiResult decT (Json.obj fields) = .error e := by
  have hmem : ∀ tag, getResultTag fields = .ok tag →
      Json.str tag ∈ valuesFor ["result"] fields := by
    intro tag hgt
    unfold getResultTag at hgt
    cases hv : valuesFor ["result"] fields with
    | nil => rw [hv] at hgt; exact Except.noConfusion hgt
    | cons v tl =>
      rw [hv] at hgt
      cases tl with
      | cons v2 tl2 => cases v <;> exact Except.noConfusion hgt
      | nil =>
        cases v with
        | str s =>
          have : s = tag := Except.ok.inj hgt
          subst this
          exact List.mem_singleton_self _
        | null => exact Except.noConfusion hgt
        | bool b => exact Except.noConfusion hgt
        | num n => exact Except.noConfusion hgt
        | arr xs => exact Except.noConfusion hgt
        | obj fs => exact Except.noConfusion hgt
  show ∃ e, decodeEnvelopeFields decT fields = .error e
  cases hgt : getResultTag fields with
  | error e =>
    exact ⟨e, by unfold decodeEnvelopeFields; rw [hgt]⟩
  | ok tag =>
    have hbad := h _ (hmem tag hgt)
    have h1 : tag ≠ "success" := by simpa [Json.isStr] using hbad.1
    have h2 : tag ≠ "error" := by simpa [Json.isStr] using hbad.2
    exact ⟨"unknown variant " ++ tag,
      by unfold decodeEnvelopeFields; rw [hgt]; simp [h1, h2]⟩

/-- C3: a response body whose `result` field is absent, or present with a
value that is neither `success` nor `error`, makes every operation fail
with a transport error (`ReqwestErr`), whatever the HTTP status; in
particular no such body decodes to a success value. -/
theorem bad_result_tag_is_transport_error (fields : List (String × Json))
    (status : Nat)
    (h : ∀ v ∈ valuesFor ["result"] fields,
      Json.isStr v "success" = false ∧ Json.isStr v "error" = false) :
    classify (list_handle ⟨status, Json.obj fields⟩) = ErrClass.transport ∧
      classify (info_handle ⟨status, Json.obj fields⟩) = ErrClass.transport ∧
      classify (key_handle ⟨status, Json.obj fields⟩) = ErrClass.transport ∧
      classify (upload_handle ⟨status, Json.obj fields⟩) = ErrClass.transport ∧
      classify (delete_handle ⟨status, Json.obj fields⟩) = ErrClass.transport := by
  refine ⟨?_, ?_, ?_, ?_, ?_⟩
  case _ =>
    obtain ⟨e, he⟩ := decodeApiResult_error_of_bad_tag decodeListEntries fields h
    by_cases hst : 400 ≤ status ∧ status ≤ 599 <;>
      simp [list_handle, error_for_status, hst, decodeStep, he, classify]
  case _ =>
    obtain ⟨e, he⟩ := decodeApiResult_error_of_bad_tag decodeInfo fields h
    by_cases hst : 400 ≤ status ∧ status ≤ 599 <;>
      simp [info_handle, error_for_status, hst, decodeStep, he, classify]
  case _ =>
    obtain ⟨e, he⟩ := decodeApiResult_error_of_bad_tag decodeString fields h
    by_cases hst : 400 ≤ status ∧ status ≤ 599 <;>
      simp [key_handle, error_for_status, hst, decodeStep, he, classify]
  case _ =>
    obtain ⟨e, he⟩ := decodeApiResult_error_of_bad_tag decodeString fields h
    simp [upload_handle, decodeStep, he, classify]
  case _ =>
    obtain ⟨e, he⟩ := decodeApiResult_error_of_bad_tag decodeString fields h
    simp [delete_handle, decodeStep, he, classify]

/-- C4 counterexample: at HTTP status 500 with an error-envelope body,
`list` classifies the failure as a transport error while `upload`
classifies it as an API error, so the two operations do not classify the
same status and body the same way. -/
theorem upload_list_divergence_at_500 :
    classify (list_handle ⟨500, Json.obj [("result", Json.str "error"),
        ("error_type", Json.str "invalid_auth"),
        ("message", Json.str "Invalid login")]⟩) = ErrClass.transport ∧
      classify (upload_handle ⟨500, Json.obj [("result", Json.str "error"),
        ("error_type", Json.str "invalid_auth"),
        ("message", Json.str "Invalid login")]⟩) = ErrClass.api ∧
      classify (list_handle ⟨500, Json.obj [("result", Json.str "error"),
          ("error_type", Json.str "invalid_auth"),
          ("message", Json.str "Invalid login")]⟩) ≠
        classify (upload_handle ⟨500, Json.obj [("result", Json.str "error"),
          ("error_type", Json.str "invalid_auth"),
          ("message", Json.str "Invalid login")]⟩) :=
  ⟨rfl, rfl, by decide⟩

/-- C4 amended: `upload` (like `delete`) performs no HTTP status check
and decodes the body regardless of status, while `list` additionally
fails with a transport error on any 4xx/5xx status; outside that status
range `list` too just decodes the body. -/
theorem upload_skips_status_check (status : Nat) (body : Json) :
    upload_handle ⟨status, body⟩ = decodeStep decodeString body ∧
      delete_handle ⟨status, body⟩ = upload_handle ⟨status, body⟩ ∧
      (400 ≤ status ∧ status ≤ 599 →
        classify (list_handle ⟨status, body⟩) = ErrClass.transport) ∧
      (¬(400 ≤ status ∧ status ≤ 599) →
        list_handle ⟨status, body⟩ = decodeStep decodeListEntries body) := by
  refine ⟨rfl, rfl, ?_, ?_⟩
  · intro h
    simp [list_handle, error_for_status, h, classify]
  · intro h
    simp [list_handle, error_for_status, h]

/-- Witness for `upload_skips_status_check`: both status-dependent
conclusions hold at concrete statuses. -/
theorem upload_skips_status_check_witness :
    classify (list_handle ⟨500, Json.obj []⟩) = ErrClass.transport ∧
      list_handle ⟨200, Json.obj []⟩ = decodeStep decodeListEntries (Json.obj []) :=
  ⟨(upload_skips_status_check 500 (Json.obj [])).2.2.1 (by decide),
    (upload_skips_status_check 200 (Json.obj [])).2.2.2 (by decide)⟩

/-- The file pass issues exactly one delete call per `File` entry other
than `index.html`, in listing order, whatever the failure oracle says. -/
theorem runFilePass_fst (f : String → Bool) (l : List ListEntry) :
    (runFilePass f l).1 = l.filterMap (fun e =>
      match e with
      | ListEntry.File p _ _ _ => if p = "index.html" then none else some p
      | ListEntry.Directory _ _ => none) := by
  induction l with
  | nil => rfl
  | cons e rest ih =>
    cases e with
    | File p s u h =>
      by_cases hp : p = "index.html"
      · simp [runFilePass, hp, List.filterMap_cons, ih]
      · by_cases hd : f p <;> simp [runFilePass, hp, hd, List.filterMap_cons, ih]
    | Directory p u => simp [runFilePass, List.filterMap_cons, ih]

/-- The directory pass issues exactly one delete call per `Directory`
entry, in listing order. -/
theorem runDirPass_eq (f : String → Bool) (l : List ListEntry) :
    runDirPass f l = l.filterMap (fun e =>
      match e with
      | ListEntry.Directory p _ => some p
      | ListEntry.File _ _ _ _ => none) := by
  induction l with
  | nil => rfl
  | cons e rest ih => cases e <;> simp [runDirPass, List.filterMap_cons, ih]

/-- C5: the `DeleteAll` sweep issues one delete call per listed file
except a file whose path is exactly `index.html`, then one per listed
directory, and the calls issued do not depend on which individual delete
calls fail. -/
theorem deleteAll_call_pattern (f g : String → Bool) (l : List ListEntry) :
    (deleteAllRun f l).calls =
        l.filterMap (fun e =>
          match e with
          | ListEntry.File p _ _ _ => if p = "index.html" then none else some p
          | ListEntry.Directory _ _ => none) ++
        l.filterMap (fun e =>
          match e with
          | ListEntry.Directory p _ => some p
          | ListEntry.File _ _ _ _ => none) ∧
      (deleteAllRun f l).calls = (deleteAllRun g l).calls := by
  constructor
  · simp [deleteAllRun, runFilePass_fst, runDirPass_eq]
  · simp [deleteAllRun, runFilePass_fst, runDirPass_eq]

/-! Separator normalization. -/

theorem normalizeSeparators_append (a b : String) :
    normalizeSeparators (a ++ b) = normalizeSeparators a ++ normalizeSeparators b := by
  unfold normalizeSeparators
  show String.mk _ = String.mk _
  rw [String.data_append, List.map_append]

theorem normalizeSeparators_of_no_backslash (s : String)
    (h : ('\\' : Char) ∉ s.data) : normalizeSeparators s = s := by
  unfold normalizeSeparators
  have hmap : s.data.map (fun c => if c = '\\' then '/' else c) = s.data := by
    have := List.map_congr_left (l := s.data)
      (f := fun c => if c = '\\' then '/' else c) (g := id)
      (fun c hc => by
        have hne : c ≠ '\\' := fun hcc => h (hcc ▸ hc)
        simp [hne])
    rw [this, List.map_id]
  rw [hmap]

theorem normalizeSeparators_backslash : normalizeSeparators "\\" = "/" := rfl

/-- A path joined with the forward-slash separator from backslash-free
components contains no backslash. -/
theorem renderPath_slash_no_backslash :
    ∀ comps : List String, (∀ c ∈ comps, ('\\' : Char) ∉ c.data) →
      ('\\' : Char) ∉ (renderPath "/" comps).data
  | [], _ => by simp [renderPath]
  | [c], h => h c (List.mem_singleton_self _)
  | c :: c2 :: rest, h => by
    have hc := h c (List.mem_cons_self _ _)
    have hrest := renderPath_slash_no_backslash (c2 :: rest)
      (fun x hx => h x (List.mem_cons_of_mem _ hx))
    intro hmem
    rw [show renderPath "/" (c :: c2 :: rest) =
        c ++ "/" ++ renderPath "/" (c2 :: rest) from rfl] at hmem
    rw [String.data_append, String.data_append] at hmem
    rcases List.mem_append.mp hmem with hin | hin
    · rcases List.mem_append.mp hin with hin2 | hin2
      · exact hc hin2
      · simp at hin2
    · exact hrest hin

/-- Joining backslash-free components with the Windows separator and then
normalizing yields exactly the forward-slash join. -/
theorem normalize_renderPath :
    ∀ comps : List String, (∀ c ∈ comps, ('\\' : Char) ∉ c.data) →
      normalizeSeparators (renderPath "\\" comps) = renderPath "/" comps ∧
        normalizeSeparators (renderPath "/" comps) = renderPath "/" comps
  | [], _ => ⟨rfl, rfl⟩
  | [c], h =>
    ⟨normalizeSeparators_of_no_backslash c (h c (List.mem_singleton_self _)),
      normalizeSeparators_of_no_backslash c (h c (List.mem_singleton_self _))⟩
  | c :: c2 :: rest, h => by
    have hc := h c (List.mem_cons_self _ _)
    have hrest : ∀ x ∈ c2 :: rest, ('\\' : Char) ∉ x.data :=
      fun x hx => h x (List.mem_cons_of_mem _ hx)
    have ih := normalize_renderPath (c2 :: rest) hrest
    constructor
    · rw [show renderPath "\\" (c :: c2 :: rest) =
          c ++ "\\" ++ renderPath "\\" (c2 :: rest) from rfl]
      rw [normalizeSeparators_append, normalizeSeparators_append,
        normalizeSeparators_of_no_backslash c hc, normalizeSeparators_backslash,
        ih.1]
      rfl
    · exact normalizeSeparators_of_no_backslash _
        (renderPath_slash_no_backslash (c :: c2 :: rest) h)

/-- Running the loop over `steps ++ tail` when every step of `steps` gets
past without aborting: the calls are the expected uploads of `steps`
followed by whatever the tail produces, and the outcome is the tail's. -/
theorem uploadAllRun_append (readF : List String → Except String (List Nat))
    (uploadF : String → List Nat → Except String String) (sep : String)
    (tail : List WalkStep) :
    ∀ steps : List WalkStep, (∀ s ∈ steps, stepOk readF uploadF sep s) →
      (uploadAllRun readF uploadF sep (steps ++ tail)).calls =
          expectedUploads sep steps ++ (uploadAllRun readF uploadF sep tail).calls ∧
        (uploadAllRun readF uploadF sep (steps ++ tail)).result =
          (uploadAllRun readF uploadF sep tail).result
  | [], _ => by simp [expectedUploads]
  | WalkStep.err m :: rest, hok =>
    absurd (hok _ (List.mem_cons_self _ _)) (by simp [stepOk])
  | WalkStep.entry comps isDir :: rest, hok => by
    have ih := uploadAllRun_append readF uploadF sep tail rest
      (fun x hx => hok x (List.mem_cons_of_mem _ hx))
    cases isDir with
    | true =>
      simpa [uploadAllRun, expectedUploads, List.filterMap_cons] using ih
    | false =>
      obtain ⟨contents, hc, m, hm⟩ := hok _ (List.mem_cons_self _ _)
      simp [uploadAllRun, hc, hm, expectedUploads, List.filterMap_cons, ih.1, ih.2]

/-- C6: when every file in the walk reads and uploads cleanly, `UploadAll`
issues exactly one upload per file entry and none per directory entry,
with remote paths relative to the root and separator-normalized; the path
normalization maps the host separator to forward slashes; and the loop
aborts on the first walk error, read error, or upload failure, issuing no
upload call for any later walk item. -/
theorem uploadAll_spec (readF : List String → Except String (List Nat))
    (uploadF : String → List Nat → Except String String) (sep : String)
    (steps : List WalkStep)
    (hok : ∀ s ∈ steps, stepOk readF uploadF sep s) :
    ((uploadAllRun readF uploadF sep steps).calls = expectedUploads sep steps ∧
      (uploadAllRun readF uploadF sep steps).result = Except.ok ()) ∧
    (∀ comps : List String, (∀ c ∈ comps, ('\\' : Char) ∉ c.data) →
      normalizeSeparators (renderPath "\\" comps) = renderPath "/" comps ∧
        normalizeSeparators (renderPath "/" comps) = renderPath "/" comps) ∧
    (∀ m rest,
      (uploadAllRun readF uploadF sep (steps ++ WalkStep.err m :: rest)).calls =
          expectedUploads sep steps ∧
        (uploadAllRun readF uploadF sep (steps ++ WalkStep.err m :: rest)).result =
          Except.error m) ∧
    (∀ comps rest e, readF comps = .error e →
      (uploadAllRun readF uploadF sep
          (steps ++ WalkStep.entry comps false :: rest)).calls =
          expectedUploads sep steps ∧
        (uploadAllRun readF uploadF sep
            (steps ++ WalkStep.entry comps false :: rest)).result =
          Except.error e) ∧
    (∀ comps contents rest e, readF comps = .ok contents →
      uploadF (normalizeSeparators (renderPath sep comps)) contents = .error e →
      (uploadAllRun readF uploadF sep
          (steps ++ WalkStep.entry comps false :: rest)).calls =
          expectedUploads sep steps ++ [normalizeSeparators (renderPath sep comps)] ∧
        (uploadAllRun readF uploadF sep
            (steps ++ WalkStep.entry comps false :: rest)).result =
          Except.error e) := by
  refine ⟨?_, ?_, ?_, ?_, ?_⟩
  · have h := uploadAllRun_append readF uploadF sep [] steps hok
    rw [List.append_nil] at h
    simpa [uploadAllRun] using h
  · exact fun comps h => normalize_renderPath comps h
  · intro m rest
    have h := uploadAllRun_append readF uploadF sep (WalkStep.err m :: rest) steps hok
    simpa [uploadAllRun] using h
  · intro comps rest e he
    have h := uploadAllRun_append readF uploadF sep
      (WalkStep.entry comps false :: rest) steps hok
    simpa [uploadAllRun, he] using h
  · intro comps contents rest e hc hu
    have h := uploadAllRun_append readF uploadF sep
      (WalkStep.entry comps false :: rest) steps hok
    simpa [uploadAllRun, hc, hu] using h

/-- Witness for `uploadAll_spec`: over the sample tree with `a.txt` and
`sub/b.txt`, joined with the Windows separator, exactly the uploads
`a.txt` and `sub/b.txt` are issued and the loop succeeds. -/
theorem uploadAll_spec_witness :
    (uploadAllRun readAlwaysOk uploadAlwaysOk "\\" sampleWalk).calls =
        ["a.txt", "sub/b.txt"] ∧
      (uploadAllRun readAlwaysOk uploadAlwaysOk "\\" sampleWalk).result =
        Except.ok () := by
  have h := uploadAll_spec readAlwaysOk uploadAlwaysOk "\\" sampleWalk (by
    intro s hs
    fin_cases hs
    · exact ⟨[], rfl, "your file(s) have been successfully uploaded", rfl⟩
    · exact trivial
    · exact ⟨[], rfl, "your file(s) have been successfully uploaded", rfl⟩)
  exact ⟨h.1.1.trans (by rfl), h.1.2⟩

/-- C7: the authorization mechanism is selected purely by the active
credential variant — a Basic header for username/password, a Bearer
header for a key — and the only effect is appending that one header:
method, URL and body are untouched. -/
theorem add_authorization_header_spec (r : RequestBuilder) (a : Auth) :
    (add_authorization_header r a).method = r.method ∧
      (add_authorization_header r a).url = r.url ∧
      (add_authorization_header r a).body = r.body ∧
      (add_authorization_header r a).headers = r.headers ++
        [("authorization",
          match a with
          | Auth.Login username password =>
            "Basic " ++ base64Encode (strBytes (username ++ ":" ++ password))
          | Auth.Key key => "Bearer " ++ key)] := by
  cases a <;> exact ⟨rfl, rfl, rfl, rfl⟩

/-- C8: the CLI builds a credential only from a complete
username/password pair or a complete key, and fails fast when neither
complete form is available. -/
theorem credential_always_complete (u v k : Option String) :
    (∀ x y, selectCredential u v k = .ok (Auth.Login x y) →
      u = some x ∧ v = some y) ∧
      (∀ x, selectCredential u v k = .ok (Auth.Key x) → k = some x) ∧
      (∀ e, selectCredential u v k = .error e →
        (u = none ∨ v = none) ∧ k = none) := by
  cases u <;> cases v <;> cases k <;> simp [selectCredential]

/-- Witness for `credential_always_complete`: a constructed `Login` comes
from a complete pair, and with an incomplete pair and no key the run
fails fast. -/
theorem credential_always_complete_witness :
    ((some "user" : Option String) = some "user" ∧
      (some "pass" : Option String) = some "pass") ∧
      (((some "user" : Option String) = none ∨ (none : Option String) = none) ∧
        (none : Option String) = none) :=
  ⟨(credential_always_complete (some "user") (some "pass") none).1 "user" "pass" rfl,
    (credential_always_complete (some "user") none none).2.2 "No login specified!" rfl⟩

/-- C9: a complete username/password pair takes precedence over a key,
and an incomplete pair alongside a key is ignored in favour of the
key. -/
theorem credential_precedence (u p k : String) :
    selectCredential (some u) (some p) (some k) = .ok (Auth.Login u p) ∧
      selectCredential (some u) none (some k) = .ok (Auth.Key k) ∧
      selectCredential none (some p) (some k) = .ok (Auth.Key k) ∧
      selectCredential none none (some k) = .ok (Auth.Key k) :=
  ⟨rfl, rfl, rfl, rfl⟩

/-- C10: the `list` subcommand prints nothing for a `Directory` entry,
wherever it sits in the listing; only `File` entries produce output. -/
theorem listCmd_skips_directories (pre post : List ListEntry) (p u : String) :
    listCmdOutput (pre ++ ListEntry.Directory p u :: post) =
        listCmdOutput (pre ++ post) ∧
      listCmdOutput [ListEntry.Directory p u] = ([] : List String) := by
  constructor
  · induction pre with
    | nil => rfl
    | cons e rest ih => cases e <;> simp [listCmdOutput, ih]
  · rfl

/-- Witness for `error_envelope_defaults`: a concrete error envelope with
one unrelated extra field decodes with empty-string defaults. -/
theorem error_envelope_defaults_witness :
    decodeApiResult (fun j => Except.ok j)
        (Json.obj [("result", Json.str "error"), ("foo", Json.num 1)]) =
      Except.ok (ApiResult.Error "" "") := by
  have h := error_envelope_defaults (fun j => Except.ok j)
    [("foo", Json.num 1)] "t" "m" (by
      intro kv hkv
      have hkv2 : kv = ("foo", Json.num 1) := by simpa using hkv
      subst hkv2
      exact ⟨by decide, by decide, by decide⟩)
  exact h.1

/-- Witness for `bad_result_tag_is_transport_error`: a body whose
`result` is the string `ok` makes `list` and `upload` fail with a
transport error at status 200. -/
theorem bad_result_tag_witness :
    classify (list_handle ⟨200, Json.obj [("result", Json.str "ok")]⟩) =
        ErrClass.transport ∧
      classify (upload_handle ⟨200, Json.obj [("result", Json.str "ok")]⟩) =
        ErrClass.transport := by
  have h := bad_result_tag_is_transport_error [("result", Json.str "ok")] 200 (by
    intro v hv
    have hv1 : valuesFor ["result"] [("result", Json.str "ok")] =
        [Json.str "ok"] := rfl
    rw [hv1] at hv
    have hv2 : v = Json.str "ok" := List.mem_singleton.mp hv
    subst hv2
    exact ⟨rfl, rfl⟩)
  exact ⟨h.1, h.2.2.2.1⟩

end Neocities
